import Mathlib

/-!
Verification of the cluster query dispatch layer of easy-cass-mcp.

The source is embedded shallowly:
* `cassandra_connection.py` — connection lifecycle (`connect`, `disconnect`),
  the callback-to-awaitable bridge (`execute_async`, `execute_on_host`),
  the per-host execution-profile registry, and `_prepare_statements`;
* `cassandra_service.py` — the fan-out dispatchers `execute_on_all_nodes`
  and `query_system_table_on_nodes`.

Driver callbacks are modelled by a `CallbackEvent` per host: the success
callback fires with rows at some time, the error callback fires with a
message at some time, or neither ever fires.  Awaiting a future that is
never resolved is modelled by the `hangs` outcome / `Option.none`.
-/

namespace EasyCassMcp

/-! ### Constants (ecm/constants.py) -/

def CONNECTION_TIMEOUT : Nat := 30

def QUERY_TIMEOUT : Nat := 10

def MAX_CONCURRENT_QUERIES : Nat := 10

/-! ### Basic data -/

/-- A driver row; opaque to the dispatch layer, kept concrete for evaluation. -/
abbrev Row := String

/-- One host of the cluster membership snapshot (`cluster.metadata.all_hosts()`);
only its `address` attribute is consumed by the embedded code. -/
structure Host where
  address : String
deriving DecidableEq

/-- How the driver's `ResponseFuture` behaves for one issued query: the
success callback fires with rows at a given time, the error callback fires
with an exception message at a given time, or neither callback ever fires. -/
inductive CallbackEvent where
  | success (rows : List Row) (fires_at : Nat)
  | failure (msg : String) (fires_at : Nat)
  | never
deriving DecidableEq

/-- The errors raised by `execute_async` (`CassandraQueryError` with the
three message shapes of cassandra_connection.py lines 141, 165, 167). -/
inductive QueryErr where
  | not_connected
  | query_timeout (seconds : Nat)
  | execution_failed (cause : String)
deriving DecidableEq

/-- The exact exception message text of the source for each `QueryErr`. -/
def QueryErr.message : QueryErr → String
  | .not_connected => "Not connected to Cassandra"
  | .query_timeout s => "Query timeout after " ++ toString s ++ " seconds"
  | .execution_failed c => "Query execution failed: " ++ c

/-- Result of awaiting a bridged future: the rows, a raised exception
message, or no return at all (the await never resolves). -/
inductive BridgeResult where
  | ok (rows : List Row)
  | raised (msg : String)
  | hangs
deriving DecidableEq

/-! ### Python dict (insertion-ordered, overwrite keeps position) -/

/-- Python `d[key] = v`: overwrite in place if the key exists, else append. -/
def dictInsert {β : Type} : List (String × β) → String → β → List (String × β)
  | [], key, v => [(key, v)]
  | (k, w) :: rest, key, v =>
      if k = key then (k, v) :: rest else (k, w) :: dictInsert rest key v

/-- Python `d[key]` / `d.get(key)`. -/
def dictLookup {β : Type} : List (String × β) → String → Option β
  | [], _ => none
  | (k, v) :: rest, key => if k = key then some v else dictLookup rest key

/-- Python `list(d.keys())` (insertion order). -/
def dictKeys {β : Type} (d : List (String × β)) : List String := d.map Prod.fst

/-! ### Connection state (CassandraConnection attributes) -/

/-- The mutable attributes of `CassandraConnection` that the embedded
methods read or write: `_is_connected`, whether `self.cluster` /
`self.session` are set, the `_execution_profiles` registry (kept as the
ordered list of profile names passed to `cluster.add_execution_profile`),
and the `prepared_statements` dict (name to prepared query text). -/
structure ConnectionState where
  is_connected : Bool
  has_cluster : Bool
  has_session : Bool
  execution_profiles : List String
  prepared_statements : List (String × String)
deriving DecidableEq

/-- The state right after `__init__`. -/
def initial_state : ConnectionState :=
  { is_connected := false, has_cluster := false, has_session := false,
    execution_profiles := [], prepared_statements := [] }

/-! ### _prepare_statements (cassandra_connection.py lines 98-123) -/

/-- The fixed `statements_to_prepare` dict of `_prepare_statements`. -/
def statements_to_prepare : List (String × String) :=
  [("select_tables",
    "SELECT table_name FROM system_schema.tables WHERE keyspace_name = ?"),
   ("select_keyspaces",
    "SELECT keyspace_name FROM system_schema.keyspaces"),
   ("select_columns",
    "SELECT * FROM system_schema.columns WHERE keyspace_name = ? AND table_name = ?")]

/-- `_prepare_statements`: for each named statement, `session.prepare` either
succeeds (`prepare_ok name = true`, the statement is stored) or raises
(the exception is caught, a warning is logged, the statement is skipped).
The method itself never raises. -/
def prepare_statements (prepare_ok : String → Bool)
    (prepared : List (String × String)) : List (String × String) :=
  statements_to_prepare.foldl
    (fun acc nq => if prepare_ok nq.1 then dictInsert acc nq.1 nq.2 else acc)
    prepared

/-! ### connect / disconnect (cassandra_connection.py lines 48-96, 231-249) -/

/-- Outcome of one `asyncio.wait_for(run_in_executor ...)` setup step inside
`connect`: it returns, times out, or raises some other exception. -/
inductive StepResult where
  | ok
  | timeout
  | raised (msg : String)
deriving DecidableEq

/-- The environment a `connect` call runs against: how cluster creation and
`cluster.connect` behave, and which statement preparations succeed. -/
structure ConnectEnv where
  cluster_step : StepResult
  session_step : StepResult
  prepare_ok : String → Bool

/-- `connect`: no-op when already connected; otherwise creates the cluster
and session under `CONNECTION_TIMEOUT`, converting a timeout into
`CassandraConnectionError("Connection timeout ...")` and any other failure
into `CassandraConnectionError("Failed to connect: ...")`; on success sets
`_is_connected` and prepares statements.  Returns the raised error or unit,
the resulting attribute state, and whether setup work was performed. -/
def connect (env : ConnectEnv) (s : ConnectionState) :
    Except String Unit × ConnectionState × Bool :=
  if s.is_connected then (.ok (), s, false)
  else
    match env.cluster_step with
    | .timeout =>
        (.error ("Connection timeout after " ++ toString CONNECTION_TIMEOUT
           ++ " seconds"), s, true)
    | .raised msg => (.error ("Failed to connect: " ++ msg), s, true)
    | .ok =>
        let s1 := { s with has_cluster := true }
        match env.session_step with
        | .timeout =>
            (.error ("Connection timeout after " ++ toString CONNECTION_TIMEOUT
               ++ " seconds"), s1, true)
        | .raised msg => (.error ("Failed to connect: " ++ msg), s1, true)
        | .ok =>
            (.ok (),
             { s1 with
               has_session := true
               is_connected := true
               prepared_statements :=
                 prepare_statements env.prepare_ok s1.prepared_statements },
             true)

/-- `disconnect`: returns early when not connected; otherwise shuts the
session and cluster down inside `try` (`shutdown_raises` says whether that
call raises; the `except` clause only logs), and in `finally` always clears
`_is_connected`, `_execution_profiles` and `prepared_statements`.  The
returned log records which path was taken; the method never raises. -/
def disconnect (shutdown_raises : Bool) (s : ConnectionState) :
    ConnectionState × List String :=
  if s.is_connected = false then (s, ["Not connected, skipping disconnect"])
  else
    ({ s with
       is_connected := false
       execution_profiles := []
       prepared_statements := [] },
     if shutdown_raises then
       ["Disconnecting from Cassandra", "Error during disconnect"]
     else
       ["Disconnecting from Cassandra"])

/-! ### execute_async (cassandra_connection.py lines 125-167) -/

/-- `execute_async`: raises `CassandraQueryError("Not connected ...")` before
issuing anything when not connected; otherwise issues the query and awaits
the bridged future under `asyncio.wait_for(..., timeout=QUERY_TIMEOUT)`,
converting `asyncio.TimeoutError` into a query-timeout error and any other
exception (the errback's) into an execution-failed error.  The boolean
records whether `session.execute_async` was ever called. -/
def execute_async (s : ConnectionState) (ev : CallbackEvent) :
    Except QueryErr (List Row) × Bool :=
  if s.is_connected = false then (.error .not_connected, false)
  else
    match ev with
    | .success rows t =>
        if t < QUERY_TIMEOUT then (.ok rows, true)
        else (.error (.query_timeout QUERY_TIMEOUT), true)
    | .failure msg t =>
        if t < QUERY_TIMEOUT then (.error (.execution_failed msg), true)
        else (.error (.query_timeout QUERY_TIMEOUT), true)
    | .never => (.error (.query_timeout QUERY_TIMEOUT), true)

/-! ### execute_on_host (cassandra_connection.py lines 182-229) -/

/-- The profile key of `execute_on_host` line 187:
`"host_" + host_address.replace(".", "_").replace(":", "_")`.  Both
patterns are single characters, so the two replaces are one character map. -/
def normalize_profile_name (host_address : String) : String :=
  "host_" ++ String.mk (host_address.data.map
    (fun c => if c = '.' ∨ c = ':' then '_' else c))

/-- Lines 190-198: if no profile is registered under the key, build a
single-host profile and register it via `cluster.add_execution_profile`;
otherwise reuse the existing one. -/
def ensure_profile (profiles : List String) (host_address : String) :
    List String :=
  let name := normalize_profile_name host_address
  if name ∈ profiles then profiles else profiles ++ [name]

/-- `execute_on_host`: ensures the host's execution profile, issues the
query with it, then awaits the bridged future with **no** timeout
(line 226 is `return await future`).  A fired error callback makes the
await raise, which line 229 re-raises; a never-firing callback means the
await never returns. -/
def execute_on_host (s : ConnectionState) (host_address : String)
    (ev : CallbackEvent) : ConnectionState × BridgeResult :=
  ({ s with execution_profiles := ensure_profile s.execution_profiles host_address },
   match ev with
   | .success rows _ => .ok rows
   | .failure msg _ => .raised msg
   | .never => .hangs)

/-! ### Dispatch layer (cassandra_service.py) -/

/-- What `query_host` returns for one host: either `list(result)` or the
error dict constructed from the caught exception. -/
inductive Outcome where
  | rows (items : List Row)
  | failure (msg : String)
deriving DecidableEq

/-- The outcome `query_host` produces once its awaited per-host query has
resolved with the given callback event (success rows, or a caught
exception whose `str(e)` is the message). -/
def outcomeOf : CallbackEvent → Outcome
  | .success rows _ => .rows rows
  | .failure msg _ => .failure msg
  | .never => .rows []

/-- The inner `query_host` coroutine of both dispatchers (cassandra_service.py
lines 99-110 and 282-293): awaits `execute_on_host` for the host's address,
catches any exception and turns it into an error entry; `none` models the
case where the awaited per-host future never resolves, so `query_host`
itself never returns. -/
def query_host (env : String → CallbackEvent) (host : Host) :
    Option (String × Outcome) :=
  match env host.address with
  | .success rows _ => some (host.address, .rows rows)
  | .failure msg _ => some (host.address, .failure msg)
  | .never => none

/-- The batch schedule of the dispatch loop
(`for i in range(0, len(hosts), batch_size): batch = hosts[i:i+batch_size]`),
with explicit fuel so the definition is structural; `len(hosts)` steps always
suffice since every step consumes at least one element when `k > 0`. -/
def toBatchesAux {α : Type} : Nat → Nat → List α → List (List α)
  | 0, _, _ => []
  | _, _, [] => []
  | fuel + 1, k, l => l.take k :: toBatchesAux fuel k (l.drop k)

/-- The list of consecutive batches of size `k` (last one possibly shorter)
that the dispatch loop iterates over. -/
def toBatches {α : Type} (k : Nat) (l : List α) : List (List α) :=
  if k = 0 then [] else toBatchesAux l.length k l

/-- `asyncio.gather(*[query_host(h) for h in batch])` with
`return_exceptions=False`: resolves to the list of `(address, outcome)`
pairs in task-submission order once every member resolves; if any member
never resolves, the gather never resolves. -/
def gatherHosts (env : String → CallbackEvent) :
    List Host → Option (List (String × Outcome))
  | [] => some []
  | h :: hs =>
      match query_host env h, gatherHosts env hs with
      | some p, some ps => some (p :: ps)
      | _, _ => none

/-- The sequential batch loop: gathers each batch in turn and extends
`query_results`; a batch that never settles means the whole call never
returns. -/
def runBatches (env : String → CallbackEvent) :
    List (List Host) → Option (List (String × Outcome))
  | [] => some []
  | b :: bs =>
      match gatherHosts env b, runBatches env bs with
      | some ps, some qs => some (ps ++ qs)
      | _, _ => none

/-- `results = {}; for host_address, result in query_results:
results[host_address] = result`. -/
def buildResults (pairs : List (String × Outcome)) : List (String × Outcome) :=
  pairs.foldl (fun d p => dictInsert d p.1 p.2) []

/-- The shared tail of both dispatchers (cassandra_service.py lines 112-128
and 295-311): batch the hosts with
`batch_size = min(MAX_CONCURRENT_QUERIES, len(hosts))`, run the batches in
sequence, and build the per-node results dict. -/
def dispatch_results (env : String → CallbackEvent) (hosts : List Host) :
    Option (List (String × Outcome)) :=
  (runBatches env (toBatches (min MAX_CONCURRENT_QUERIES hosts.length) hosts)).map
    buildResults

/-- `execute_on_all_nodes` (cassandra_service.py lines 84-128): `hosts` is
the membership snapshot from `get_all_hosts()`; an empty snapshot returns
the empty dict with no error, otherwise every known host is dispatched to. -/
def execute_on_all_nodes (all_hosts : List Host)
    (env : String → CallbackEvent) : Option (List (String × Outcome)) :=
  if all_hosts.isEmpty then some []
  else dispatch_results env all_hosts

/-- The keyspaces `query_system_table_on_nodes` accepts. -/
def valid_keyspaces : List String := ["system", "system_views"]

/-- `query_system_table_on_nodes` (cassandra_service.py lines 233-311):
validates the keyspace (`ValueError` otherwise, modelled as `.error`);
returns the empty dict when the cluster snapshot is empty; when
`node_addresses` is truthy (present **and non-empty** — Python's
`if node_addresses:`) filters the snapshot to the requested addresses and
returns the empty dict when nothing matches; otherwise dispatches to every
known host.  The queried table only shapes the CQL text and log lines, so
it is not a parameter of the model. -/
def query_system_table_on_nodes (keyspace : String) (all_hosts : List Host)
    (node_addresses : Option (List String)) (env : String → CallbackEvent) :
    Except String (Option (List (String × Outcome))) :=
  if keyspace ∈ valid_keyspaces then
    if all_hosts.isEmpty then .ok (some [])
    else
      match node_addresses with
      | some addrs =>
          if addrs.isEmpty then .ok (dispatch_results env all_hosts)
          else
            let hosts_to_query := all_hosts.filter
              (fun h => decide (h.address ∈ addrs))
            if hosts_to_query.isEmpty then .ok (some [])
            else .ok (dispatch_results env hosts_to_query)
      | none => .ok (dispatch_results env all_hosts)
  else .error "Invalid keyspace. Must be system or system_views"

/-! ### Helper lemmas: dict semantics -/

theorem dictKeys_insert {β : Type} (d : List (String × β)) (k : String) (v : β) :
    dictKeys (dictInsert d k v) =
      if k ∈ dictKeys d then dictKeys d else dictKeys d ++ [k] := by
  induction d with
  | nil => simp [dictInsert, dictKeys]
  | cons p rest ih =>
      obtain ⟨pk, pv⟩ := p
      by_cases h : pk = k
      · subst h
        simp [dictInsert, dictKeys]
      · have hk2 : ¬ k = pk := fun he => h he.symm
        simp only [dictInsert, dictKeys, List.map_cons, if_neg h]
        rw [dictKeys] at ih
        rw [ih]
        by_cases hk : k ∈ List.map Prod.fst rest
        · simp [dictKeys, List.mem_cons, hk, hk2]
        · simp [dictKeys, List.mem_cons, hk, hk2]

theorem dictInsert_of_not_mem {β : Type} (d : List (String × β)) (k : String)
    (v : β) (h : k ∉ dictKeys d) : dictInsert d k v = d ++ [(k, v)] := by
  induction d with
  | nil => simp [dictInsert]
  | cons p rest ih =>
      obtain ⟨pk, pv⟩ := p
      simp only [dictKeys, List.map_cons, List.mem_cons] at h
      push_neg at h
      have hpk : ¬ pk = k := fun he => h.1 he.symm
      simp only [dictInsert, if_neg hpk, List.cons_append, List.cons.injEq,
        true_and]
      exact ih h.2

theorem dictLookup_insert_self {β : Type} (d : List (String × β)) (k : String)
    (v : β) : dictLookup (dictInsert d k v) k = some v := by
  induction d with
  | nil => simp [dictInsert, dictLookup]
  | cons p rest ih =>
      obtain ⟨pk, pv⟩ := p
      by_cases h : pk = k
      · subst h
        simp [dictInsert, dictLookup]
      · simp [dictInsert, dictLookup, h, ih]

theorem dictLookup_insert_of_ne {β : Type} (d : List (String × β))
    (k key : String) (v : β) (h : key ≠ k) :
    dictLookup (dictInsert d k v) key = dictLookup d key := by
  have hk : ¬ k = key := fun he => h he.symm
  induction d with
  | nil => simp [dictInsert, dictLookup, hk]
  | cons p rest ih =>
      obtain ⟨pk, pv⟩ := p
      by_cases hpk : pk = k
      · subst hpk
        simp [dictInsert, dictLookup, hk]
      · simp only [dictInsert, if_neg hpk, dictLookup]
        by_cases hpkey : pk = key
        · simp [hpkey]
        · simp [hpkey, ih]

/-- Folding `dictInsert` over pairs whose values are a function of their key:
a key that occurs among the pairs looks up to exactly that function value. -/
theorem foldl_dictInsert_lookup (f : String → Outcome)
    (pairs : List (String × Outcome)) (hf : ∀ p ∈ pairs, p.2 = f p.1)
    (d : List (String × Outcome)) (k : String) :
    dictLookup (pairs.foldl (fun acc p => dictInsert acc p.1 p.2) d) k =
      if k ∈ pairs.map Prod.fst then some (f k) else dictLookup d k := by
  induction pairs generalizing d with
  | nil => simp
  | cons p rest ih =>
      have hp : p.2 = f p.1 := hf p (List.mem_cons_self p rest)
      have hrest : ∀ q ∈ rest, q.2 = f q.1 :=
        fun q hq => hf q (List.mem_cons_of_mem p hq)
      simp only [List.foldl_cons, List.map_cons, List.mem_cons]
      rw [ih hrest]
      by_cases hk : k ∈ rest.map Prod.fst
      · simp [hk]
      · by_cases hkp : k = p.1
        · subst hkp
          simp [hk, dictLookup_insert_self, hp]
        · have : ¬ (k = p.1 ∨ k ∈ List.map Prod.fst rest) := by
            rintro (h | h)
            · exact hkp h
            · exact hk h
          simp [hk, hkp, this, dictLookup_insert_of_ne d p.1 k p.2 hkp]

/-- Folding `dictInsert` over pairs with pairwise-distinct keys, none already
present, just appends the pairs in order. -/
theorem foldl_dictInsert_eq_append (pairs : List (String × Outcome))
    (d : List (String × Outcome)) (hnd : (pairs.map Prod.fst).Nodup)
    (hdisj : ∀ k ∈ pairs.map Prod.fst, k ∉ dictKeys d) :
    pairs.foldl (fun acc p => dictInsert acc p.1 p.2) d = d ++ pairs := by
  induction pairs generalizing d with
  | nil => simp
  | cons p rest ih =>
      simp only [List.map_cons, List.nodup_cons] at hnd
      have hpd : p.1 ∉ dictKeys d :=
        hdisj p.1 (by simp)
      have hins : dictInsert d p.1 p.2 = d ++ [p] := by
        rw [dictInsert_of_not_mem d p.1 p.2 hpd]
      have hdisj2 : ∀ k ∈ rest.map Prod.fst, k ∉ dictKeys (d ++ [p]) := by
        intro k hk
        simp only [dictKeys, List.map_append, List.mem_append, List.map_cons,
          List.map_nil, List.mem_singleton]
        rintro (h | h)
        · exact hdisj k (by simp [hk]) h
        · exact hnd.1 (h ▸ hk)
      simp only [List.foldl_cons]
      rw [hins, ih (d ++ [p]) hnd.2 hdisj2, List.append_assoc]
      rfl

theorem buildResults_eq_self (pairs : List (String × Outcome))
    (hnd : (pairs.map Prod.fst).Nodup) : buildResults pairs = pairs := by
  have := foldl_dictInsert_eq_append pairs [] hnd (by simp [dictKeys])
  simpa [buildResults] using this

theorem buildResults_lookup (f : String → Outcome)
    (pairs : List (String × Outcome)) (hf : ∀ p ∈ pairs, p.2 = f p.1)
    (k : String) :
    dictLookup (buildResults pairs) k =
      if k ∈ pairs.map Prod.fst then some (f k) else none := by
  have := foldl_dictInsert_lookup f pairs hf [] k
  simpa [buildResults, dictLookup] using this

/-! ### Helper lemmas: gather and batching -/

theorem query_host_resolved (env : String → CallbackEvent) (h : Host)
    (hres : env h.address ≠ CallbackEvent.never) :
    query_host env h = some (h.address, outcomeOf (env h.address)) := by
  unfold query_host outcomeOf
  cases hev : env h.address with
  | success rows t => rfl
  | failure msg t => rfl
  | never => exact absurd hev hres

theorem gatherHosts_resolved (env : String → CallbackEvent) (hosts : List Host)
    (hres : ∀ h ∈ hosts, env h.address ≠ CallbackEvent.never) :
    gatherHosts env hosts =
      some (hosts.map (fun h => (h.address, outcomeOf (env h.address)))) := by
  induction hosts with
  | nil => rfl
  | cons h hs ih =>
      have h1 := query_host_resolved env h (hres h (List.mem_cons_self h hs))
      have h2 := ih (fun x hx => hres x (List.mem_cons_of_mem h hx))
      simp [gatherHosts, h1, h2]

theorem gatherHosts_append (env : String → CallbackEvent)
    (l1 l2 : List Host) :
    gatherHosts env (l1 ++ l2) =
      match gatherHosts env l1, gatherHosts env l2 with
      | some a, some b => some (a ++ b)
      | _, _ => none := by
  induction l1 with
  | nil =>
      simp only [List.nil_append, gatherHosts]
      cases gatherHosts env l2 <;> rfl
  | cons h hs ih =>
      cases hq : query_host env h <;> cases hg : gatherHosts env hs <;>
        cases hl : gatherHosts env l2 <;>
          simp [gatherHosts, hq, hg, hl, ih]

theorem runBatches_toBatchesAux (env : String → CallbackEvent) (fuel k : Nat)
    (l : List Host) (hk : k ≠ 0) (hfuel : l.length ≤ fuel) :
    runBatches env (toBatchesAux fuel k l) = gatherHosts env l := by
  induction fuel generalizing l with
  | zero =>
      have : l = [] := List.eq_nil_of_length_eq_zero (Nat.le_zero.mp hfuel)
      subst this
      rfl
  | succ fuel ih =>
      cases l with
      | nil => rfl
      | cons a l' =>
          have hlen : (List.drop k (a :: l')).length ≤ fuel := by
            rw [List.length_drop]
            have hk1 : 1 ≤ k := Nat.one_le_iff_ne_zero.mpr hk
            have : (a :: l').length - k ≤ (a :: l').length - 1 :=
              Nat.sub_le_sub_left hk1 _
            omega
          simp only [toBatchesAux, runBatches]
          rw [ih (List.drop k (a :: l')) hlen]
          have happ := gatherHosts_append env (List.take k (a :: l'))
            (List.drop k (a :: l'))
          rw [List.take_append_drop] at happ
          rw [happ]

theorem runBatches_toBatches (env : String → CallbackEvent) (k : Nat)
    (l : List Host) (hk : k ≠ 0) :
    runBatches env (toBatches k l) = gatherHosts env l := by
  unfold toBatches
  rw [if_neg hk]
  exact runBatches_toBatchesAux env l.length k l hk (Nat.le_refl _)

theorem dispatch_results_eq_gather (env : String → CallbackEvent)
    (hosts : List Host) :
    dispatch_results env hosts = (gatherHosts env hosts).map buildResults := by
  unfold dispatch_results
  cases hosts with
  | nil => rfl
  | cons a l =>
      rw [runBatches_toBatches]
      have : 0 < min MAX_CONCURRENT_QUERIES (a :: l).length := by
        simp [MAX_CONCURRENT_QUERIES, Nat.lt_min, List.length_cons]
      omega

theorem toBatchesAux_join {α : Type} (fuel k : Nat) (l : List α) (hk : k ≠ 0)
    (hfuel : l.length ≤ fuel) : (toBatchesAux fuel k l).flatten = l := by
  induction fuel generalizing l with
  | zero =>
      have : l = [] := List.eq_nil_of_length_eq_zero (Nat.le_zero.mp hfuel)
      subst this
      rfl
  | succ fuel ih =>
      cases l with
      | nil => rfl
      | cons a l' =>
          have hlen : (List.drop k (a :: l')).length ≤ fuel := by
            rw [List.length_drop]
            have hk1 : 1 ≤ k := Nat.one_le_iff_ne_zero.mpr hk
            omega
          simp only [toBatchesAux, List.flatten_cons]
          rw [ih (List.drop k (a :: l')) hlen, List.take_append_drop]

theorem toBatchesAux_mem_length {α : Type} (fuel k : Nat) (l : List α)
    (b : List α) (hb : b ∈ toBatchesAux fuel k l) : b.length ≤ k := by
  induction fuel generalizing l with
  | zero => simp [toBatchesAux] at hb
  | succ fuel ih =>
      cases l with
      | nil => simp [toBatchesAux] at hb
      | cons a l' =>
          simp only [toBatchesAux, List.mem_cons] at hb
          rcases hb with rfl | hb
          · simp
          · exact ih (List.drop k (a :: l')) hb

theorem toBatchesAux_dropLast_length {α : Type} (fuel k : Nat) (l : List α)
    (b : List α) (hb : b ∈ (toBatchesAux fuel k l).dropLast) : b.length = k := by
  induction fuel generalizing l with
  | zero => simp [toBatchesAux] at hb
  | succ fuel ih =>
      cases l with
      | nil => simp [toBatchesAux] at hb
      | cons a l' =>
          simp only [toBatchesAux] at hb
          cases hrest : toBatchesAux fuel k (List.drop k (a :: l')) with
          | nil =>
              rw [hrest] at hb
              simp at hb
          | cons rb rbs =>
              rw [hrest, List.dropLast_cons₂] at hb
              rcases List.mem_cons.mp hb with rfl | hb2
              · have hd : List.drop k (a :: l') ≠ [] := by
                  intro hnil
                  rw [hnil] at hrest
                  cases fuel <;> simp [toBatchesAux] at hrest
                have hklt : k < (a :: l').length := by
                  by_contra hle
                  push_neg at hle
                  exact hd (List.drop_eq_nil_of_le hle)
                simp only [List.length_take]
                omega
              · exact ih (List.drop k (a :: l')) (by rw [hrest]; exact hb2)

/-! ### Helper lemmas: the dispatchers under fully-resolving environments -/

/-- The `(address, outcome)` pairs a host list produces, in submission order. -/
def hostPairs (env : String → CallbackEvent) (hosts : List Host) :
    List (String × Outcome) :=
  hosts.map (fun h => (h.address, outcomeOf (env h.address)))

theorem hostPairs_fst (env : String → CallbackEvent) (hosts : List Host) :
    (hostPairs env hosts).map Prod.fst = hosts.map Host.address := by
  simp [hostPairs, List.map_map]

theorem dispatch_results_resolved (env : String → CallbackEvent)
    (hosts : List Host)
    (hres : ∀ h ∈ hosts, env h.address ≠ CallbackEvent.never) :
    dispatch_results env hosts = some (buildResults (hostPairs env hosts)) := by
  rw [dispatch_results_eq_gather, gatherHosts_resolved env hosts hres]
  rfl

theorem buildResults_hostPairs (env : String → CallbackEvent)
    (hosts : List Host) (hnd : (hosts.map Host.address).Nodup) :
    buildResults (hostPairs env hosts) = hostPairs env hosts := by
  apply buildResults_eq_self
  rw [hostPairs_fst]
  exact hnd

theorem execute_on_all_nodes_resolved (all_hosts : List Host)
    (env : String → CallbackEvent)
    (hres : ∀ h ∈ all_hosts, env h.address ≠ CallbackEvent.never)
    (hnd : (all_hosts.map Host.address).Nodup) :
    execute_on_all_nodes all_hosts env = some (hostPairs env all_hosts) := by
  cases all_hosts with
  | nil => rfl
  | cons a l =>
      unfold execute_on_all_nodes
      rw [dispatch_results_resolved env (a :: l) hres,
        buildResults_hostPairs env (a :: l) hnd]
      rfl

theorem nodup_filter_addresses (all_hosts : List Host) (p : Host → Bool)
    (hnd : (all_hosts.map Host.address).Nodup) :
    ((all_hosts.filter p).map Host.address).Nodup :=
  hnd.sublist ((List.filter_sublist all_hosts).map Host.address)

/-- `query_system_table_on_nodes` with a valid keyspace and a **non-empty**
explicit target list returns the filtered hosts' pairs in membership order. -/
theorem query_system_table_filtered (ks : String) (all_hosts : List Host)
    (addrs : List String) (env : String → CallbackEvent)
    (hks : ks ∈ valid_keyspaces) (hne : addrs ≠ [])
    (hres : ∀ h ∈ all_hosts, env h.address ≠ CallbackEvent.never)
    (hnd : (all_hosts.map Host.address).Nodup) :
    query_system_table_on_nodes ks all_hosts (some addrs) env
      = .ok (some (hostPairs env
          (all_hosts.filter (fun h => decide (h.address ∈ addrs))))) := by
  have haddr : addrs.isEmpty = false := by
    cases addrs with
    | nil => exact absurd rfl hne
    | cons x xs => rfl
  unfold query_system_table_on_nodes
  rw [if_pos hks]
  cases hall : all_hosts.isEmpty with
  | true =>
      have h0 : all_hosts = [] := List.isEmpty_iff.mp hall
      subst h0
      simp [hostPairs]
  | false =>
      have hres2 : ∀ h ∈ all_hosts.filter (fun h => decide (h.address ∈ addrs)),
          env h.address ≠ CallbackEvent.never :=
        fun h hh => hres h (List.mem_of_mem_filter hh)
      cases hfe : (all_hosts.filter (fun h => decide (h.address ∈ addrs))).isEmpty with
      | true =>
          have h0 : all_hosts.filter (fun h => decide (h.address ∈ addrs)) = [] :=
            List.isEmpty_iff.mp hfe
          simp [hall, haddr, hfe, h0, hostPairs]
      | false =>
          have hd := dispatch_results_resolved env
            (all_hosts.filter (fun h => decide (h.address ∈ addrs))) hres2
          have hb := buildResults_hostPairs env
            (all_hosts.filter (fun h => decide (h.address ∈ addrs)))
            (nodup_filter_addresses all_hosts _ hnd)
          simp [hall, haddr, hfe, hd, hb]

/-! ### Claim theorems -/

/-- C1 counterexample: the claim fails for the explicitly **empty** target
list.  With one known host and `node_addresses = []`, the intersection of
targets and known hosts is empty, so the claim demands an empty result map;
but `if node_addresses:` in the source treats the empty list like `None`,
queries every known host, and the result has one entry. -/
theorem c1_counterexample :
    query_system_table_on_nodes "system" [⟨"10.0.0.1"⟩] (some [])
        (fun _ => CallbackEvent.success [] 0)
      = .ok (some [("10.0.0.1", Outcome.rows [])]) ∧
    ([(⟨"10.0.0.1"⟩ : Host)].filter
        (fun h => decide (h.address ∈ ([] : List String)))).length = 0 := by
  exact ⟨rfl, rfl⟩

/-- C1 (amended): for every dispatch call with an explicit **non-empty**
target-address list, the returned result map contains exactly one entry per
host that is both requested and present in the membership snapshot; every
key of the map is a requested and known address, so requested-but-unknown
addresses produce no entry; the zero-known-hosts case and the
empty-intersection case both return an empty map without raising.  An
explicitly empty target list is instead treated like an omitted list and
queries every known host. -/
theorem c1_dispatch_completeness (ks : String) (all_hosts : List Host)
    (addrs : List String) (env : String → CallbackEvent)
    (hks : ks ∈ valid_keyspaces) (hne : addrs ≠ [])
    (hres : ∀ h ∈ all_hosts, env h.address ≠ CallbackEvent.never)
    (hnd : (all_hosts.map Host.address).Nodup) :
    ∃ d, query_system_table_on_nodes ks all_hosts (some addrs) env
        = .ok (some d) ∧
      d.length
        = (all_hosts.filter (fun h => decide (h.address ∈ addrs))).length ∧
      dictKeys d
        = (all_hosts.filter (fun h => decide (h.address ∈ addrs))).map
            Host.address ∧
      (∀ k ∈ dictKeys d, k ∈ addrs ∧ k ∈ all_hosts.map Host.address) ∧
      (all_hosts = [] → d = []) ∧
      (all_hosts.filter (fun h => decide (h.address ∈ addrs)) = [] →
        d = []) := by
  refine ⟨hostPairs env (all_hosts.filter (fun h => decide (h.address ∈ addrs))),
    query_system_table_filtered ks all_hosts addrs env hks hne hres hnd,
    by simp [hostPairs], ?_, ?_, ?_, ?_⟩
  · rw [show dictKeys (hostPairs env
        (all_hosts.filter (fun h => decide (h.address ∈ addrs))))
      = (hostPairs env (all_hosts.filter
          (fun h => decide (h.address ∈ addrs)))).map Prod.fst from rfl]
    exact hostPairs_fst env _
  · intro k hk
    simp only [dictKeys, hostPairs, List.map_map, List.mem_map] at hk
    obtain ⟨h, hh, rfl⟩ := hk
    have hmem := (List.mem_filter.mp hh).1
    have hcond : decide (h.address ∈ addrs) = true :=
      (List.mem_filter.mp hh).2
    exact ⟨of_decide_eq_true hcond, List.mem_map.mpr ⟨h, hmem, rfl⟩⟩
  · intro h0
    subst h0
    simp [hostPairs]
  · intro h0
    rw [h0]
    rfl

/-- C1 amended-claim witness at a concrete input: two known hosts, one of
them requested; the result has exactly the one requested-and-known entry. -/
theorem c1_dispatch_completeness_witness :
    ∃ d, query_system_table_on_nodes "system"
          [⟨"10.0.0.1"⟩, ⟨"10.0.0.2"⟩] (some ["10.0.0.1", "10.9.9.9"])
          (fun a => if a = "10.0.0.1" then CallbackEvent.failure "boom" 0
            else CallbackEvent.success ["row1"] 1)
        = .ok (some d) ∧
      d.length
        = ([(⟨"10.0.0.1"⟩ : Host), ⟨"10.0.0.2"⟩].filter
            (fun h => decide (h.address ∈ ["10.0.0.1", "10.9.9.9"]))).length ∧
      dictKeys d
        = ([(⟨"10.0.0.1"⟩ : Host), ⟨"10.0.0.2"⟩].filter
            (fun h => decide (h.address ∈ ["10.0.0.1", "10.9.9.9"]))).map
              Host.address ∧
      (∀ k ∈ dictKeys d,
        k ∈ ["10.0.0.1", "10.9.9.9"] ∧
        k ∈ [(⟨"10.0.0.1"⟩ : Host), ⟨"10.0.0.2"⟩].map Host.address) ∧
      ([(⟨"10.0.0.1"⟩ : Host), ⟨"10.0.0.2"⟩] = ([] : List Host) → d = []) ∧
      ([(⟨"10.0.0.1"⟩ : Host), ⟨"10.0.0.2"⟩].filter
          (fun h => decide (h.address ∈ ["10.0.0.1", "10.9.9.9"])) = [] →
        d = []) :=
  c1_dispatch_completeness "system" [⟨"10.0.0.1"⟩, ⟨"10.0.0.2"⟩]
    ["10.0.0.1", "10.9.9.9"]
    (fun a => if a = "10.0.0.1" then CallbackEvent.failure "boom" 0
      else CallbackEvent.success ["row1"] 1)
    (by decide) (by decide) (by decide) (by decide)

/-- C2: whenever a targeted-and-known host's per-host query raises, the
dispatch call still returns a map (it does not raise): the exception is
caught in that host's `query_host` wrapper and recorded as the failure
outcome keyed by that host's address, and every targeted host — the failing
one included — has its own entry in the map. -/
theorem c2_failure_isolation (all_hosts : List Host)
    (env : String → CallbackEvent)
    (hres : ∀ h ∈ all_hosts, env h.address ≠ CallbackEvent.never) :
    ∃ d, execute_on_all_nodes all_hosts env = some d ∧
      ∀ h ∈ all_hosts,
        dictLookup d h.address = some (outcomeOf (env h.address)) ∧
        ∀ msg t, env h.address = CallbackEvent.failure msg t →
          dictLookup d h.address = some (Outcome.failure msg) := by
  cases hall : all_hosts with
  | nil => exact ⟨[], rfl, by simp⟩
  | cons a l =>
      refine ⟨buildResults (hostPairs env (a :: l)), ?_, ?_⟩
      · unfold execute_on_all_nodes
        rw [dispatch_results_resolved env (a :: l) (hall ▸ hres)]
        rfl
      · intro h hh
        have hf : ∀ p ∈ hostPairs env (a :: l),
            p.2 = (fun addr => outcomeOf (env addr)) p.1 := by
          intro p hp
          simp only [hostPairs, List.mem_map] at hp
          obtain ⟨x, _, rfl⟩ := hp
          rfl
        have hmem : h.address ∈ (hostPairs env (a :: l)).map Prod.fst := by
          rw [hostPairs_fst]
          exact List.mem_map.mpr ⟨h, hh, rfl⟩
        have hlook := buildResults_lookup (fun addr => outcomeOf (env addr))
          (hostPairs env (a :: l)) hf h.address
        rw [if_pos hmem] at hlook
        refine ⟨hlook, fun msg t he => ?_⟩
        rw [hlook, he]
        rfl

/-- C2 witness: three hosts, the middle one's query raises; the dispatch
returns a complete map with the failure recorded under that host. -/
theorem c2_failure_isolation_witness :
    ∃ d, execute_on_all_nodes [⟨"a"⟩, ⟨"b"⟩, ⟨"c"⟩]
          (fun x => if x = "b" then CallbackEvent.failure "refused" 2
            else CallbackEvent.success ["r"] 1)
        = some d ∧
      ∀ h ∈ [(⟨"a"⟩ : Host), ⟨"b"⟩, ⟨"c"⟩],
        dictLookup d h.address
          = some (outcomeOf ((fun x =>
              if x = "b" then CallbackEvent.failure "refused" 2
              else CallbackEvent.success ["r"] 1) h.address)) ∧
        ∀ msg t, (fun x => if x = "b" then CallbackEvent.failure "refused" 2
            else CallbackEvent.success ["r"] 1) h.address
            = CallbackEvent.failure msg t →
          dictLookup d h.address = some (Outcome.failure msg) :=
  c2_failure_isolation [⟨"a"⟩, ⟨"b"⟩, ⟨"c"⟩]
    (fun x => if x = "b" then CallbackEvent.failure "refused" 2
      else CallbackEvent.success ["r"] 1)
    (by decide)

/-- C3 counterexample: a per-host dispatch query whose callbacks never fire
does **not** resolve with a timeout error — `execute_on_host` awaits its
future with no timeout (line 226 is `return await future`), so the
operation hangs instead of producing any raised error. -/
theorem c3_counterexample :
    (execute_on_host initial_state "10.0.0.1" CallbackEvent.never).2
        = BridgeResult.hangs ∧
    (execute_on_host initial_state "10.0.0.1" CallbackEvent.never).2
        ≠ BridgeResult.raised
            (QueryErr.query_timeout QUERY_TIMEOUT).message := by
  exact ⟨rfl, by decide⟩

/-- C3 (amended): only direct `execute_async` calls carry a per-query
timeout — a never-firing callback there resolves as the query-timeout
error.  A per-host query issued by a dispatch call awaits its future with
no timeout: a fired error callback is re-raised and captured as that
host's failure outcome (never a dispatch-wide exception), while a
never-firing callback leaves the per-host operation unresolved. -/
theorem c3_timeout_semantics (s : ConnectionState) (a msg : String)
    (t : Nat) (env : String → CallbackEvent) (h : Host)
    (hc : s.is_connected = true) :
    execute_async s CallbackEvent.never
      = (.error (QueryErr.query_timeout QUERY_TIMEOUT), true) ∧
    (execute_on_host s a (CallbackEvent.failure msg t)).2
      = BridgeResult.raised msg ∧
    (execute_on_host s a CallbackEvent.never).2 = BridgeResult.hangs ∧
    (env h.address = CallbackEvent.failure msg t →
      query_host env h = some (h.address, Outcome.failure msg)) ∧
    (env h.address = CallbackEvent.never → query_host env h = none) := by
  refine ⟨by simp [execute_async, hc], rfl, rfl, fun he => ?_, fun he => ?_⟩
  · simp [query_host, he]
  · simp [query_host, he]

/-- C3 amended-claim witness at a concrete connected state and host. -/
theorem c3_timeout_semantics_witness :
    execute_async { initial_state with is_connected := true }
        CallbackEvent.never
      = (.error (QueryErr.query_timeout QUERY_TIMEOUT), true) ∧
    (execute_on_host { initial_state with is_connected := true } "10.0.0.1"
        (CallbackEvent.failure "refused" 3)).2
      = BridgeResult.raised "refused" ∧
    (execute_on_host { initial_state with is_connected := true } "10.0.0.1"
        CallbackEvent.never).2 = BridgeResult.hangs ∧
    ((fun _ => CallbackEvent.failure "refused" 3) (Host.address ⟨"10.0.0.1"⟩)
        = CallbackEvent.failure "refused" 3 →
      query_host (fun _ => CallbackEvent.failure "refused" 3) ⟨"10.0.0.1"⟩
        = some ("10.0.0.1", Outcome.failure "refused")) ∧
    ((fun _ => CallbackEvent.failure "refused" 3) (Host.address ⟨"10.0.0.1"⟩)
        = CallbackEvent.never →
      query_host (fun _ => CallbackEvent.failure "refused" 3) ⟨"10.0.0.1"⟩
        = none) :=
  c3_timeout_semantics { initial_state with is_connected := true }
    "10.0.0.1" "refused" 3 (fun _ => CallbackEvent.failure "refused" 3)
    ⟨"10.0.0.1"⟩ rfl

/-- C4: a dispatch call over `N` targets runs exactly the batch schedule
`toBatches (min MAX_CONCURRENT_QUERIES N)`: consecutive batches whose
concatenation is the target list, every non-final batch of size exactly
`min(K, N)`, every batch of size at most `min(K, N) ≤ K` — so at most `K`
per-host operations are in flight at any instant, each batch being awaited
before the next one starts. -/
theorem c4_batching_bound (hosts : List Host) (env : String → CallbackEvent) :
    dispatch_results env hosts
      = (runBatches env
          (toBatches (min MAX_CONCURRENT_QUERIES hosts.length) hosts)).map
          buildResults ∧
    (toBatches (min MAX_CONCURRENT_QUERIES hosts.length) hosts).flatten
      = hosts ∧
    (∀ b ∈ toBatches (min MAX_CONCURRENT_QUERIES hosts.length) hosts,
      b.length ≤ min MAX_CONCURRENT_QUERIES hosts.length ∧
      b.length ≤ MAX_CONCURRENT_QUERIES) ∧
    (∀ b ∈ (toBatches (min MAX_CONCURRENT_QUERIES hosts.length) hosts).dropLast,
      b.length = min MAX_CONCURRENT_QUERIES hosts.length) := by
  refine ⟨rfl, ?_, ?_, ?_⟩
  · cases hosts with
    | nil => rfl
    | cons a l =>
        have hk : min MAX_CONCURRENT_QUERIES (a :: l).length ≠ 0 := by
          simp only [MAX_CONCURRENT_QUERIES, List.length_cons]
          omega
        unfold toBatches
        rw [if_neg hk]
        exact toBatchesAux_join (a :: l).length _ (a :: l) hk (Nat.le_refl _)
  · intro b hb
    unfold toBatches at hb
    by_cases hk : min MAX_CONCURRENT_QUERIES hosts.length = 0
    · rw [if_pos hk] at hb
      simp at hb
    · rw [if_neg hk] at hb
      have := toBatchesAux_mem_length hosts.length _ hosts b hb
      exact ⟨this, this.trans (Nat.min_le_left _ _)⟩
  · intro b hb
    unfold toBatches at hb
    by_cases hk : min MAX_CONCURRENT_QUERIES hosts.length = 0
    · rw [if_pos hk] at hb
      simp at hb
    · rw [if_neg hk] at hb
      exact toBatchesAux_dropLast_length hosts.length _ hosts b hb

/-- C4 witness: 25 hosts and `K = 10` give batches `10, 10, 5`; the inner
bounds are discharged at the first batch of the schedule. -/
theorem c4_batching_bound_witness :
    (toBatches
        (min MAX_CONCURRENT_QUERIES
          (((List.range 25).map (fun i => Host.mk (toString i))).length))
        ((List.range 25).map (fun i => Host.mk (toString i)))).flatten
      = (List.range 25).map (fun i => Host.mk (toString i)) ∧
    ((List.range 25).map (fun i => Host.mk (toString i))).take 10
        ∈ toBatches
          (min MAX_CONCURRENT_QUERIES
            (((List.range 25).map (fun i => Host.mk (toString i))).length))
          ((List.range 25).map (fun i => Host.mk (toString i))) ∧
    (((List.range 25).map (fun i => Host.mk (toString i))).take 10).length
        ≤ MAX_CONCURRENT_QUERIES :=
  ⟨(c4_batching_bound ((List.range 25).map (fun i => Host.mk (toString i)))
      (fun _ => CallbackEvent.never)).2.1,
   by decide,
   ((c4_batching_bound ((List.range 25).map (fun i => Host.mk (toString i)))
      (fun _ => CallbackEvent.never)).2.2.1 _ (by decide)).2⟩

/-- C5: when `disconnect()` is called in the connected state and the
underlying shutdown call throws, the exception is caught (the call returns
normally, merely logging the error) and on every exit path the state is
marked disconnected with both the execution-profile cache and the
prepared-statement cache cleared. -/
theorem c5_disconnect_safety (s : ConnectionState) (shutdown_raises : Bool)
    (hc : s.is_connected = true) :
    (disconnect shutdown_raises s).1.is_connected = false ∧
    (disconnect shutdown_raises s).1.execution_profiles = [] ∧
    (disconnect shutdown_raises s).1.prepared_statements = [] ∧
    (disconnect true s).2
      = ["Disconnecting from Cassandra", "Error during disconnect"] := by
  simp [disconnect, hc]

/-- C5 witness: a connected state with populated caches, shutdown throwing. -/
theorem c5_disconnect_safety_witness :
    (disconnect true
        { is_connected := true, has_cluster := true, has_session := true,
          execution_profiles := ["host_10_0_0_1"],
          prepared_statements := [("select_tables", "q")] }).1.is_connected
      = false ∧
    (disconnect true
        { is_connected := true, has_cluster := true, has_session := true,
          execution_profiles := ["host_10_0_0_1"],
          prepared_statements := [("select_tables", "q")] }).1.execution_profiles
      = [] ∧
    (disconnect true
        { is_connected := true, has_cluster := true, has_session := true,
          execution_profiles := ["host_10_0_0_1"],
          prepared_statements := [("select_tables", "q")] }).1.prepared_statements
      = [] ∧
    (disconnect true
        { is_connected := true, has_cluster := true, has_session := true,
          execution_profiles := ["host_10_0_0_1"],
          prepared_statements := [("select_tables", "q")] }).2
      = ["Disconnecting from Cassandra", "Error during disconnect"] :=
  c5_disconnect_safety
    { is_connected := true, has_cluster := true, has_session := true,
      execution_profiles := ["host_10_0_0_1"],
      prepared_statements := [("select_tables", "q")] } true rfl

/-- C6: `connect()` on an already-connected state returns immediately with
no setup work; a first `connect()` from a disconnected state does perform
setup; after a successful `connect()` a second `connect()` is a no-op — so
two consecutive connects set up exactly once.  `disconnect()` after any
`disconnect()` finds the disconnected state, performs no cleanup and never
raises (it only logs the skip). -/
theorem c6_idempotent_lifecycle (env env2 : ConnectEnv) (s : ConnectionState)
    (r1 r2 : Bool) :
    (s.is_connected = true → connect env s = (.ok (), s, false)) ∧
    (s.is_connected = false → (connect env s).2.2 = true) ∧
    (∀ s1, (connect env s).1 = .ok () → (connect env s).2.1 = s1 →
      connect env2 s1 = (.ok (), s1, false)) ∧
    disconnect r2 (disconnect r1 s).1
      = ((disconnect r1 s).1, ["Not connected, skipping disconnect"]) := by
  refine ⟨fun h => by simp [connect, h], fun h => ?_, fun s1 h1 h2 => ?_, ?_⟩
  · cases h1 : env.cluster_step <;> cases h2 : env.session_step <;>
      simp [connect, h, h1, h2]
  · subst h2
    by_cases hc : s.is_connected = true
    · have heq : connect env s = (.ok (), s, false) := by simp [connect, hc]
      rw [heq]
      simp [connect, hc]
    · have hcf : s.is_connected = false := by
        cases hx : s.is_connected
        · rfl
        · exact absurd hx hc
      cases hs1 : env.cluster_step <;> cases hs2 : env.session_step <;>
        simp [connect, hcf, hs1, hs2] at h1 ⊢
  · by_cases hc : s.is_connected = true <;> simp [disconnect, hc]

/-- C6 witness: a successful connect environment on the fresh state, and a
double disconnect from a connected state. -/
theorem c6_idempotent_lifecycle_witness :
    (connect ⟨StepResult.ok, StepResult.ok, fun _ => true⟩
        initial_state).2.2 = true ∧
    connect ⟨StepResult.ok, StepResult.ok, fun _ => true⟩
        ((connect ⟨StepResult.ok, StepResult.ok, fun _ => true⟩
          initial_state).2.1)
      = (.ok (),
         (connect ⟨StepResult.ok, StepResult.ok, fun _ => true⟩
           initial_state).2.1, false) ∧
    disconnect false
        (disconnect true { initial_state with is_connected := true }).1
      = ((disconnect true { initial_state with is_connected := true }).1,
         ["Not connected, skipping disconnect"]) :=
  ⟨(c6_idempotent_lifecycle ⟨.ok, .ok, fun _ => true⟩
      ⟨.ok, .ok, fun _ => true⟩ initial_state true false).2.1 rfl,
   (c6_idempotent_lifecycle ⟨.ok, .ok, fun _ => true⟩
      ⟨.ok, .ok, fun _ => true⟩ initial_state true false).2.2.1 _ rfl rfl,
   (c6_idempotent_lifecycle ⟨.ok, .ok, fun _ => true⟩
      ⟨.ok, .ok, fun _ => true⟩ { initial_state with is_connected := true }
      true false).2.2.2⟩

/-- C7: the route key is the address with `.` and `:` replaced by `_`
(prefixed `host_`); a first execution on an address registers exactly one
profile under that key, a second execution on the same address reuses it
and registers nothing — so any number of dispatches against one address
leave exactly one registered profile for it. -/
theorem c7_route_reuse (s : ConnectionState) (a : String)
    (ev1 ev2 : CallbackEvent) :
    (normalize_profile_name a ∉ s.execution_profiles →
      ((execute_on_host s a ev1).1).execution_profiles
        = s.execution_profiles ++ [normalize_profile_name a]) ∧
    (normalize_profile_name a ∈ s.execution_profiles →
      ((execute_on_host s a ev1).1).execution_profiles
        = s.execution_profiles) ∧
    ((execute_on_host ((execute_on_host s a ev1).1) a ev2).1).execution_profiles
      = ((execute_on_host s a ev1).1).execution_profiles ∧
    (normalize_profile_name a ∉ s.execution_profiles →
      (((execute_on_host ((execute_on_host s a ev1).1) a
          ev2).1).execution_profiles).count (normalize_profile_name a)
        = 1) := by
  have hfst : ∀ (t : ConnectionState) (ev : CallbackEvent),
      ((execute_on_host t a ev).1).execution_profiles
        = ensure_profile t.execution_profiles a :=
    fun t ev => rfl
  have hkey_mem : ∀ p : List String,
      normalize_profile_name a ∈ ensure_profile p a := by
    intro p
    unfold ensure_profile
    by_cases h : normalize_profile_name a ∈ p
    · rw [if_pos h]
      exact h
    · rw [if_neg h]
      simp
  have hidem : ensure_profile (ensure_profile s.execution_profiles a) a
      = ensure_profile s.execution_profiles a := by
    by_cases hp : normalize_profile_name a ∈ s.execution_profiles <;>
      simp [ensure_profile, hp]
  refine ⟨fun h => ?_, fun h => ?_, ?_, fun h => ?_⟩
  · rw [hfst]
    simp [ensure_profile, h]
  · rw [hfst]
    simp [ensure_profile, h]
  · rw [hfst, hfst, hidem]
  · rw [hfst, hfst, hidem]
    simp [ensure_profile, h, List.count_append, List.count_eq_zero.mpr h]

/-- C7 witness: two executions against `192.168.1.1` from the fresh state
register the mangled key once. -/
theorem c7_route_reuse_witness :
    (normalize_profile_name "192.168.1.1" ∉
        initial_state.execution_profiles →
      ((execute_on_host initial_state "192.168.1.1"
          (CallbackEvent.success [] 0)).1).execution_profiles
        = initial_state.execution_profiles
            ++ [normalize_profile_name "192.168.1.1"]) ∧
    (normalize_profile_name "192.168.1.1" ∉
        initial_state.execution_profiles →
      (((execute_on_host
          ((execute_on_host initial_state "192.168.1.1"
            (CallbackEvent.success [] 0)).1) "192.168.1.1"
          (CallbackEvent.success [] 1)).1).execution_profiles).count
            (normalize_profile_name "192.168.1.1") = 1) ∧
    normalize_profile_name "192.168.1.1" ∉
      initial_state.execution_profiles :=
  ⟨(c7_route_reuse initial_state "192.168.1.1" (CallbackEvent.success [] 0)
      (CallbackEvent.success [] 1)).1,
   (c7_route_reuse initial_state "192.168.1.1" (CallbackEvent.success [] 0)
      (CallbackEvent.success [] 1)).2.2.2,
   by decide⟩

/-- C8: calling `execute_async` while not connected raises the
not-connected `CassandraQueryError` without ever issuing the query (the
issued flag stays `false`); when connected the query is issued and the
result is never that error. -/
theorem c8_not_connected_guard (s : ConnectionState) (ev : CallbackEvent) :
    (s.is_connected = false →
      execute_async s ev = (.error QueryErr.not_connected, false)) ∧
    (s.is_connected = true →
      (execute_async s ev).2 = true ∧
      (execute_async s ev).1 ≠ .error QueryErr.not_connected) ∧
    QueryErr.not_connected.message = "Not connected to Cassandra" := by
  refine ⟨fun h => by simp [execute_async, h], fun h => ?_, rfl⟩
  cases ev with
  | success rows t =>
      by_cases ht : t < QUERY_TIMEOUT <;> simp [execute_async, h, ht]
  | failure msg t =>
      by_cases ht : t < QUERY_TIMEOUT <;> simp [execute_async, h, ht]
  | never => simp [execute_async, h]

/-- C8 witness: fresh (disconnected) state versus a connected state, on the
same statement event. -/
theorem c8_not_connected_guard_witness :
    execute_async initial_state (CallbackEvent.success ["r"] 1)
      = (.error QueryErr.not_connected, false) ∧
    (execute_async { initial_state with is_connected := true }
        (CallbackEvent.success ["r"] 1)).2 = true ∧
    (execute_async { initial_state with is_connected := true }
        (CallbackEvent.success ["r"] 1)).1
      ≠ .error QueryErr.not_connected :=
  ⟨(c8_not_connected_guard initial_state
      (CallbackEvent.success ["r"] 1)).1 rfl,
   ((c8_not_connected_guard { initial_state with is_connected := true }
      (CallbackEvent.success ["r"] 1)).2.1 rfl).1,
   ((c8_not_connected_guard { initial_state with is_connected := true }
      (CallbackEvent.success ["r"] 1)).2.1 rfl).2⟩

/-- C9: during a successful `connect()` each fixed named statement is
prepared independently — a statement whose preparation fails is simply
absent from the prepared-statement cache while the others are present, and
`connect()` still completes successfully whatever subset fails. -/
theorem c9_prepare_independent (env : ConnectEnv) (s : ConnectionState)
    (hc : env.cluster_step = StepResult.ok)
    (hs : env.session_step = StepResult.ok)
    (hnc : s.is_connected = false) (hp : s.prepared_statements = []) :
    ∃ s2, connect env s = (.ok (), s2, true) ∧ s2.is_connected = true ∧
      ∀ nq ∈ statements_to_prepare,
        dictLookup s2.prepared_statements nq.1
          = if env.prepare_ok nq.1 then some nq.2 else none := by
  refine ⟨{ s with
      has_cluster := true
      has_session := true
      is_connected := true
      prepared_statements :=
        prepare_statements env.prepare_ok s.prepared_statements },
    by simp [connect, hnc, hc, hs], rfl, ?_⟩
  intro nq hnq
  simp only [prepare_statements, hp]
  fin_cases hnq <;>
    cases h1 : env.prepare_ok "select_tables" <;>
    cases h2 : env.prepare_ok "select_keyspaces" <;>
    cases h3 : env.prepare_ok "select_columns" <;>
      simp [statements_to_prepare, dictInsert, dictLookup, h1, h2, h3]

/-- C9 witness: an environment where only `select_keyspaces` fails to
prepare; the other two statements are cached, the failed one is absent, and
`connect()` returns successfully. -/
theorem c9_prepare_independent_witness :
    ∃ s2, connect
        ⟨StepResult.ok, StepResult.ok, fun nm => nm ≠ "select_keyspaces"⟩
        initial_state
      = (.ok (), s2, true) ∧ s2.is_connected = true ∧
      ∀ nq ∈ statements_to_prepare,
        dictLookup s2.prepared_statements nq.1
          = if (fun nm => decide (nm ≠ "select_keyspaces")) nq.1
            then some nq.2 else none :=
  c9_prepare_independent
    ⟨StepResult.ok, StepResult.ok, fun nm => nm ≠ "select_keyspaces"⟩
    initial_state rfl rfl rfl rfl

/-- C10: the code does guarantee a deterministic result order — the
returned mapping is exactly the `(address, outcome)` pairs of the
(filtered) membership list in membership order, for `execute_on_all_nodes`,
for `query_system_table_on_nodes` with a non-empty explicit target list,
and for an explicitly empty target list (which queries all hosts); being a
function of the membership list and the per-host outcomes, two runs with
the same outcomes return the same mapping in the same order. -/
theorem c10_deterministic_order (all_hosts : List Host) (addrs : List String)
    (env : String → CallbackEvent)
    (hres : ∀ h ∈ all_hosts, env h.address ≠ CallbackEvent.never)
    (hnd : (all_hosts.map Host.address).Nodup) (hne : addrs ≠ []) :
    execute_on_all_nodes all_hosts env = some (hostPairs env all_hosts) ∧
    dictKeys (hostPairs env all_hosts) = all_hosts.map Host.address ∧
    query_system_table_on_nodes "system" all_hosts (some addrs) env
      = .ok (some (hostPairs env
          (all_hosts.filter (fun h => decide (h.address ∈ addrs))))) ∧
    query_system_table_on_nodes "system" all_hosts (some []) env
      = .ok (some (hostPairs env all_hosts)) := by
  refine ⟨execute_on_all_nodes_resolved all_hosts env hres hnd,
    hostPairs_fst env all_hosts,
    query_system_table_filtered "system" all_hosts addrs env (by decide)
      hne hres hnd, ?_⟩
  cases hall : all_hosts with
  | nil => rfl
  | cons a l =>
      have hd := dispatch_results_resolved env (a :: l) (hall ▸ hres)
      have hb := buildResults_hostPairs env (a :: l) (hall ▸ hnd)
      simp [query_system_table_on_nodes, valid_keyspaces, hd, hb]

/-- C10 witness: two hosts in snapshot order `b, a`; the mapping preserves
that order, both unfiltered and filtered. -/
theorem c10_deterministic_order_witness :
    execute_on_all_nodes [⟨"b"⟩, ⟨"a"⟩]
        (fun x => CallbackEvent.success [x] 0)
      = some (hostPairs (fun x => CallbackEvent.success [x] 0)
          [⟨"b"⟩, ⟨"a"⟩]) ∧
    dictKeys (hostPairs (fun x => CallbackEvent.success [x] 0)
        [⟨"b"⟩, ⟨"a"⟩])
      = [(⟨"b"⟩ : Host), ⟨"a"⟩].map Host.address ∧
    query_system_table_on_nodes "system" [⟨"b"⟩, ⟨"a"⟩]
        (some ["a", "b"]) (fun x => CallbackEvent.success [x] 0)
      = .ok (some (hostPairs (fun x => CallbackEvent.success [x] 0)
          ([(⟨"b"⟩ : Host), ⟨"a"⟩].filter
            (fun h => decide (h.address ∈ ["a", "b"]))))) ∧
    query_system_table_on_nodes "system" [⟨"b"⟩, ⟨"a"⟩] (some [])
        (fun x => CallbackEvent.success [x] 0)
      = .ok (some (hostPairs (fun x => CallbackEvent.success [x] 0)
          [⟨"b"⟩, ⟨"a"⟩])) :=
  c10_deterministic_order [⟨"b"⟩, ⟨"a"⟩] ["a", "b"]
    (fun x => CallbackEvent.success [x] 0)
    (by decide) (by decide) (by decide)

end EasyCassMcp
